import Mathlib

/-!
Shallow embedding of the CMIP6 parallel download engine of
`ee_download_async.py` (repository `esmoreido/climProj`).

The stateful/async Python code is embedded as pure Lean functions over
explicit environments:

* network and filesystem effects become environment functions
  (`OrchEnv.fs` maps a path to the size of an existing file,
  `OrchEnv.fetch` gives the settled outcome of a dispatched fetch,
  `Nat → AttemptOutcome` gives the outcome of each HTTP attempt);
* the `for` loops become structural recursions (the batch loop is driven
  by a fuel argument that is instantiated with the listing length at the
  top level, which the loop never exhausts, since every batch consumes at
  least one record);
* the timestamp formatter `datetime.fromtimestamp(ts / 1000).strftime`
  is an opaque parameter `fmtTs : Int → String`;
* the semaphore-bounded dispatch (`download_with_semaphore`) is embedded
  as a transition system on permit counts (`GateState` / `GateStep`).
-/

namespace ClimProj

/-- Download statistics, the `stats` dictionary of
`export_cmip6_collection_parallel` (line 93). -/
structure Stats where
  total : Nat
  successful : Nat
  failed : Nat
deriving Repr, DecidableEq

/-- A catalog record, the parts of `img_info` that the orchestrator reads:
the image id, the optional `system:time_start` property (milliseconds),
whether the `system:index` property is present, and the optional
`model` / `scenario` properties. -/
structure ImgRecord where
  id : String
  timeStart : Option Int
  hasSystemIndex : Bool
  model : Option String
  scenario : Option String
deriving Repr, DecidableEq

/-! ### Path Planner (lines 125-154) -/

/-- Replace every occurrence of a character, the effect of Python's
`str.replace(old, new)` for one-character arguments. -/
def replaceChar (s : String) (old new : Char) : String :=
  String.mk (s.data.map (fun c => if c = old then new else c))

/-- Line 153: `filename.replace('/', '_').replace(':', '_')`. -/
def sanitizeFilename (s : String) : String :=
  replaceChar (replaceChar s '/' '_') ':' '_'

/-- Line 134: `len(part) == 8 and part.isdigit()` (ASCII digits). -/
def isEightDigit (s : String) : Bool :=
  s.length == 8 && s.toList.all Char.isDigit

/-- Numeric value of a digit string. -/
def digitsToNat (s : String) : Nat :=
  s.data.foldl (fun n c => n * 10 + (c.toNat - 48)) 0

/-- Gregorian leap-year rule, as used by `datetime.strptime`. -/
def isLeap (y : Nat) : Bool :=
  (y % 4 == 0 && y % 100 != 0) || y % 400 == 0

/-- Days in a month, as validated by `datetime.strptime('%Y%m%d')`. -/
def daysInMonth (y m : Nat) : Nat :=
  if m == 2 then (if isLeap y then 29 else 28)
  else if m == 4 || m == 6 || m == 9 || m == 11 then 30
  else 31

/-- Validity of a year/month/day triple for `datetime.strptime`
(year at least 1, month 1-12, day within the month). -/
def validYMD (y m d : Nat) : Bool :=
  1 ≤ y && 1 ≤ m && m ≤ 12 && 1 ≤ d && d ≤ daysInMonth y m

/-- Whether an 8-character digit token parses under `strptime('%Y%m%d')`. -/
def valid8 (part : String) : Bool :=
  isEightDigit part &&
    validYMD (digitsToNat (part.take 4))
      (digitsToNat ((part.drop 4).take 2))
      (digitsToNat (part.drop 6))

/-- Re-format an 8-digit `YYYYMMDD` token as `YYYY-MM-DD`, the result of
`strptime(part, '%Y%m%d').strftime('%Y-%m-%d')` (zero-padded fields). -/
def formatYMD8 (s : String) : String :=
  s.take 4 ++ "-" ++ (s.drop 4).take 2 ++ "-" ++ s.drop 6

/-- Split a character list at every occurrence of a separator, the
behaviour of Python's `str.split(sep)` for a one-character separator
(empty parts are kept). -/
def splitCharAux (sep : Char) : List Char → List Char → List (List Char)
  | [], acc => [acc.reverse]
  | c :: cs, acc =>
    if c = sep then acc.reverse :: splitCharAux sep cs []
    else splitCharAux sep cs (c :: acc)

/-- `image_id.split('_')` (line 132). -/
def splitUnderscore (s : String) : List String :=
  (splitCharAux '_' s.data []).map String.mk

/-- Lines 132-139: scan `image_id.split('_')` for the first 8-digit token
that parses as a date; `strptime` failure continues the scan. -/
def dateFromId (imageId : String) : Option String :=
  (splitUnderscore imageId).findSome? (fun part =>
    if valid8 part then some (formatYMD8 part) else none)

/-- Lines 126-142: the `date_str` computation.  Priority: the
`system:time_start` property; else, when `system:index` is present, an
8-digit token of the id; else the synthetic fallback
`image_{batch_start + i}`.  The final `if not date_str` also treats an
empty formatted string as missing. -/
def dateStr (fmtTs : Int → String) (r : ImgRecord) (globalIdx : Nat) : String :=
  let d : Option String :=
    match r.timeStart with
    | some ts => some (fmtTs ts)
    | none => if r.hasSystemIndex then dateFromId r.id else none
  match d with
  | some s => if s = "" then "image_" ++ toString globalIdx else s
  | none => "image_" ++ toString globalIdx

/-- Lines 146-150: the `model_scenario` tag. -/
def modelScenario (r : ImgRecord) : String :=
  match r.model with
  | some m => m
  | none =>
    match r.scenario with
    | some sc => "CMIP6_" ++ sc
    | none => "CMIP6"

/-- Lines 152-153: the sanitized filename
`{model_scenario}_{date_str}.tif`. -/
def planFilename (fmtTs : Int → String) (r : ImgRecord) (globalIdx : Nat) : String :=
  sanitizeFilename (modelScenario r ++ "_" ++ dateStr fmtTs r globalIdx ++ ".tif")

/-- Line 154: joining `path` and `filename` (the filename never contains
a separator after sanitization). -/
def downloadPath (base : String) (fmtTs : Int → String) (r : ImgRecord)
    (globalIdx : Nat) : String :=
  base ++ "/" ++ planFilename fmtTs r globalIdx

/-! ### Single-Item Fetcher `download_cmip6_image` (lines 15-77) -/

/-- Outcome of one iteration of the retry loop: an HTTP response with a
status (`writeVerified` records whether, on a 200 response, the
post-write check `exists ∧ size > 0` passed), or an exception raised
inside the `try` block. -/
inductive AttemptOutcome
  | http (status : Nat) (writeVerified : Bool)
  | raised
deriving Repr, DecidableEq

/-- Observable trace of one `download_cmip6_image` call: the returned
boolean, the backoff sleeps in order (seconds), the number of retry-loop
iterations entered (HTTP attempts), and the number of file writes. -/
structure FetchTrace where
  result : Bool
  sleeps : List Nat
  attemptsMade : Nat
  writes : Nat
deriving Repr, DecidableEq

/-- Lines 44-73: the retry loop, with `max_retries = 3`.  `rem` counts
the iterations still to run (`max_retries - retry`), so the guard
`retry < max_retries - 1` on the backoff sleep becomes `0 < rem` in the
recursive call shape. -/
def attemptLoop (A : Nat → AttemptOutcome) : Nat → Nat → FetchTrace
  | 0, _ => { result := false, sleeps := [], attemptsMade := 0, writes := 0 }
  | rem + 1, retry =>
    let rest := attemptLoop A rem (retry + 1)
    match A retry with
    | AttemptOutcome.http status writeVerified =>
      if status == 200 then
        if writeVerified then
          { result := true, sleeps := [], attemptsMade := 1, writes := 1 }
        else if 0 < rem then
          { result := rest.result, sleeps := 2 ^ retry :: rest.sleeps,
            attemptsMade := rest.attemptsMade + 1, writes := rest.writes + 1 }
        else
          { result := rest.result, sleeps := rest.sleeps,
            attemptsMade := rest.attemptsMade + 1, writes := rest.writes + 1 }
      else if 0 < rem then
        { result := rest.result, sleeps := 2 ^ retry :: rest.sleeps,
          attemptsMade := rest.attemptsMade + 1, writes := rest.writes }
      else
        { result := rest.result, sleeps := rest.sleeps,
          attemptsMade := rest.attemptsMade + 1, writes := rest.writes }
    | AttemptOutcome.raised =>
      if 0 < rem then
        { result := rest.result, sleeps := 2 ^ retry :: rest.sleeps,
          attemptsMade := rest.attemptsMade + 1, writes := rest.writes }
      else
        { result := rest.result, sleeps := rest.sleeps,
          attemptsMade := rest.attemptsMade + 1, writes := rest.writes }

/-- Lines 15-77: `download_cmip6_image`.  `preOk` records whether the
pre-loop phase (lines 25-40: `getInfo`, `date().getInfo`,
`getDownloadURL`, `bandNames`, `makedirs`) completed without raising;
if it raised, the outer handler (lines 75-77) returns `False` before any
HTTP attempt.  Otherwise the 3-attempt retry loop runs. -/
def download_cmip6_image (preOk : Bool) (A : Nat → AttemptOutcome) : FetchTrace :=
  if preOk then attemptLoop A 3 0
  else { result := false, sleeps := [], attemptsMade := 0, writes := 0 }

/-- Whether an attempt outcome is the success case of the loop
(status 200 and the post-write verification passed, line 54). -/
def attemptSuccess (o : AttemptOutcome) : Bool :=
  match o with
  | AttemptOutcome.http status writeVerified => status == 200 && writeVerified
  | AttemptOutcome.raised => false

/-- Whether an attempt wrote the destination file (a 200 response reaches
the `open(download_path, 'wb')` write at lines 49-51). -/
def attemptIs200 (o : AttemptOutcome) : Bool :=
  match o with
  | AttemptOutcome.http status _ => status == 200
  | AttemptOutcome.raised => false

/-! ### Batch Orchestrator `export_cmip6_collection_parallel` (lines 80-199) -/

/-- Settled outcome of a dispatched task as seen by the result-counting
loop (lines 182-189): a truthy result, a falsy result, or an exception
surfaced by `gather(..., return_exceptions=True)`. -/
inductive FetchRes
  | ok
  | fail
  | exn
deriving Repr, DecidableEq

/-- Environment of one orchestrator run: the timestamp formatter, the
filesystem (size of the file at a path, if one exists), and the settled
outcome of the fetch dispatched for the record at each listing index. -/
structure OrchEnv where
  fmtTs : Int → String
  fs : String → Option Nat
  fetch : Nat → FetchRes

/-- Lines 156-164: the skip pre-check — the file at the computed path
exists and its size exceeds 1024 bytes. -/
def skipCheck (env : OrchEnv) (base : String) (r : ImgRecord) (globalIdx : Nat) : Bool :=
  match env.fs (downloadPath base env.fmtTs r globalIdx) with
  | some size => 1024 < size
  | none => false

/-- Per-slice processing result: skipped listing indices, dispatched
listing indices (both in listing order), and the contributions to the
`successful` and `failed` counters. -/
structure SliceResult where
  skipped : List Nat
  dispatched : List Nat
  succ : Nat
  failed : Nat
deriving Repr, DecidableEq

/-- Lines 116-189 for one batch slice: each record is either skipped
(counts toward `successful`, line 161) or dispatched; a dispatched
record counts toward `successful` on a truthy result and toward `failed`
on a falsy result or an exception (lines 182-189).  `g` is the global
listing index `batch_start + i`. -/
def processSlice (env : OrchEnv) (base : String) : List ImgRecord → Nat → SliceResult
  | [], _ => { skipped := [], dispatched := [], succ := 0, failed := 0 }
  | r :: rs, g =>
    let rest := processSlice env base rs (g + 1)
    if skipCheck env base r g then
      { skipped := g :: rest.skipped, dispatched := rest.dispatched,
        succ := rest.succ + 1, failed := rest.failed }
    else
      match env.fetch g with
      | FetchRes.ok =>
        { skipped := rest.skipped, dispatched := g :: rest.dispatched,
          succ := rest.succ + 1, failed := rest.failed }
      | FetchRes.fail =>
        { skipped := rest.skipped, dispatched := g :: rest.dispatched,
          succ := rest.succ, failed := rest.failed + 1 }
      | FetchRes.exn =>
        { skipped := rest.skipped, dispatched := g :: rest.dispatched,
          succ := rest.succ, failed := rest.failed + 1 }

/-- Log of one processed batch: its slice bounds, the skipped and
dispatched indices, whether the 1-second inter-batch cooldown ran after
it (line 192: `batch_end < total`), and the cumulative
`(successful, failed)` counters once the batch settled. -/
structure BatchLog where
  batchStart : Nat
  sliceLen : Nat
  skipped : List Nat
  dispatched : List Nat
  cooldownAfter : Bool
  statsAfter : Nat × Nat
deriving Repr, DecidableEq

/-- Lines 108-193: the batch loop
`for batch_start in range(0, total, batch_size)`.  The slice is
`images_info[batch_start:batch_end]`, written as
`r :: rs.take (batchSize - 1)` so the recursion is driven by a fuel
argument; the top level passes `fuel = listing.length`, which is never
exhausted because every batch consumes at least one record. -/
def runAux (env : OrchEnv) (base : String) (batchSize total : Nat) :
    Nat → List ImgRecord → Nat → Nat → Nat → (Nat × Nat) × List BatchLog
  | _, [], _, s, f => ((s, f), [])
  | 0, _ :: _, _, s, f => ((s, f), [])
  | fuel + 1, r :: rs, start, s, f =>
    let slice := r :: rs.take (batchSize - 1)
    let rest2 := rs.drop (batchSize - 1)
    let sr := processSlice env base slice start
    let s2 := s + sr.succ
    let f2 := f + sr.failed
    let out := runAux env base batchSize total fuel rest2 (start + slice.length) s2 f2
    (out.1,
      { batchStart := start, sliceLen := slice.length, skipped := sr.skipped,
        dispatched := sr.dispatched,
        cooldownAfter := decide (start + slice.length < total),
        statsAfter := (s2, f2) } :: out.2)

/-- Lines 80-199: `export_cmip6_collection_parallel`.  An empty listing
returns zero stats before the batch loop (lines 103-105).  A zero
`batch_size` makes `range(0, total, 0)` raise `ValueError`, caught by
the outer handler (lines 197-199), which returns the stats with only
`total` set. -/
def export_cmip6_collection_parallel (env : OrchEnv) (base : String)
    (listing : List ImgRecord) (batchSize : Nat) : Stats × List BatchLog :=
  let total := listing.length
  if total = 0 then ({ total := 0, successful := 0, failed := 0 }, [])
  else if batchSize = 0 then ({ total := total, successful := 0, failed := 0 }, [])
  else
    let out := runAux env base batchSize total listing.length listing 0 0 0
    ({ total := total, successful := out.1.1, failed := out.1.2 }, out.2)

/-- All skipped indices of a run, in order. -/
def logsSkipped (logs : List BatchLog) : List Nat :=
  (logs.map BatchLog.skipped).flatten

/-- All dispatched indices of a run, in order. -/
def logsDispatched (logs : List BatchLog) : List Nat :=
  (logs.map BatchLog.dispatched).flatten

/-- Whether a (listing index, record) pair passes the skip pre-check. -/
def recSkips (env : OrchEnv) (base : String) (p : Nat × ImgRecord) : Bool :=
  skipCheck env base p.2 p.1

/-- Whether a (listing index, record) pair ends up counted as failed:
it is dispatched and its fetch settles falsy or with an exception. -/
def recFails (env : OrchEnv) (base : String) (p : Nat × ImgRecord) : Bool :=
  !recSkips env base p &&
    (match env.fetch p.1 with
     | FetchRes.ok => false
     | FetchRes.fail => true
     | FetchRes.exn => true)

/-- Number of batches, line 113:
`(total + batch_size - 1) // batch_size`. -/
def numBatches (total bs : Nat) : Nat := (total + bs - 1) / bs

/-! ### Variable-Level Driver `getCMIP6_async` (lines 202-340) -/

/-- Lines 222-228: the CMIP6 band table. -/
def cmip6_bands : List (String × String) :=
  [("tas", "Near-Surface Air Temperature"),
   ("tasmin", "Daily Minimum Near-Surface Air Temperature"),
   ("tasmax", "Daily Maximum Near-Surface Air Temperature"),
   ("pr", "Precipitation"),
   ("sfcWind", "Near-Surface Wind Speed")]

/-- Lines 231-241: intersect the requested variables with the band
table, keeping the request order and dropping duplicates (dict
insertion semantics); fall back to the full table when nothing
matches. -/
def filterBands (varsReq : Option (List String)) : List (String × String) :=
  match varsReq with
  | none => cmip6_bands
  | some vars =>
    let filtered := vars.foldl (fun acc v =>
      match cmip6_bands.find? (fun p => p.1 == v) with
      | some p => if acc.any (fun q => q.1 == v) then acc else acc ++ [p]
      | none => acc) []
    if filtered.isEmpty then cmip6_bands else filtered

/-- What happened while processing one variable: an exception before the
download started (catalog query, metadata, directory creation — the
outer handler at lines 315-317), or a listing of `count` records whose
orchestrator run either raised (inner handler, lines 309-311) or
returned stats. -/
inductive VarQuery
  | queryRaise
  | listed (count : Nat) (run : Except Unit Stats)

/-- Lines 261-317: the per-variable stats entry.  An early exception
records zeros; an empty listing records zeros (lines 272-275); a raised
orchestrator run records `{total: count, successful: 0, failed: count}`
(line 311); otherwise the orchestrator's stats are recorded. -/
def processVariable (q : VarQuery) : Stats :=
  match q with
  | VarQuery.queryRaise => { total := 0, successful := 0, failed := 0 }
  | VarQuery.listed 0 _ => { total := 0, successful := 0, failed := 0 }
  | VarQuery.listed (n + 1) (Except.error _) =>
    { total := n + 1, successful := 0, failed := n + 1 }
  | VarQuery.listed (_ + 1) (Except.ok s) => s

/-- Lines 256-320: process every selected variable in sequence, recording
a stats entry for each; no per-variable failure aborts the loop. -/
def getCMIP6_async (varsReq : Option (List String))
    (query : String → VarQuery) : List (String × Stats) :=
  (filterBands varsReq).map (fun p => (p.1, processVariable (query p.1)))

/-! ### Concurrency Gate (lines 169-179) -/

/-- State of one batch's semaphore-bounded dispatch: tasks not yet
started, tasks started and unresolved, free permits, and settled
tasks. -/
structure GateState where
  pending : Nat
  running : Nat
  permits : Nat
  finished : Nat
deriving Repr, DecidableEq

/-- Cooperative-scheduler steps of `download_with_semaphore`
(lines 172-174): a pending task may start when a permit is free
(`async with semaphore` acquires), and a running task may settle —
with a truthy result, a falsy result, or an exception — whereupon the
`async with` block releases its permit unconditionally. -/
inductive GateStep : GateState → GateState → Prop
  | start (p r c f : Nat) :
    GateStep ⟨p + 1, r, c + 1, f⟩ ⟨p, r + 1, c, f⟩
  | settle (p r c f : Nat) :
    GateStep ⟨p, r + 1, c, f⟩ ⟨p, r, c + 1, f + 1⟩

/-- Initial state of a batch of `n` dispatched tasks under
`Semaphore(k)` (line 170). -/
def gateInit (n k : Nat) : GateState :=
  { pending := n, running := 0, permits := k, finished := 0 }

/-- States reachable during a batch's execution. -/
inductive GateReachable (n k : Nat) : GateState → Prop
  | init : GateReachable n k (gateInit n k)
  | step {s t : GateState} : GateReachable n k s → GateStep s t → GateReachable n k t

/-! ### Shared concrete scenario data -/

/-- A record with no date information, used by the concrete scenarios. -/
def recPlain : ImgRecord :=
  { id := "img", timeStart := none, hasSystemIndex := false, model := none,
    scenario := none }

/-- Scenario B environment: an empty destination, every fetch succeeding
except the third record (listing index 2), whose fetch settles falsy. -/
def envB : OrchEnv :=
  { fmtTs := fun _ => "", fs := fun _ => none,
    fetch := fun g => if g == 2 then FetchRes.fail else FetchRes.ok }

/-! ### Lemmas about the retry loop -/

theorem attemptLoop_attempts_le (A : Nat → AttemptOutcome) :
    ∀ rem retry, (attemptLoop A rem retry).attemptsMade ≤ rem := by
  intro rem
  induction rem with
  | zero => intro retry; simp [attemptLoop]
  | succ rem ih =>
    intro retry
    simp only [attemptLoop]
    rcases A retry with ⟨status, wv⟩ | _
    · by_cases h200 : status == 200 <;> by_cases hwv : wv = true <;>
        by_cases hrem : 0 < rem <;>
        simp [h200, hwv, hrem] <;> exact ih (retry + 1)
    · by_cases hrem : 0 < rem <;> simp [hrem] <;> exact ih (retry + 1)

theorem attemptLoop_sleeps (A : Nat → AttemptOutcome) :
    ∀ rem retry, (attemptLoop A rem retry).sleeps
      = (List.range' retry ((attemptLoop A rem retry).attemptsMade - 1)).map
          (fun i => 2 ^ i) := by
  intro rem
  induction rem with
  | zero => intro retry; simp [attemptLoop]
  | succ rem ih =>
    intro retry
    have hpos : 0 < rem → 1 ≤ (attemptLoop A rem (retry + 1)).attemptsMade := by
      intro h
      obtain ⟨rem2, rfl⟩ : ∃ rem2, rem = rem2 + 1 := ⟨rem - 1, by omega⟩
      simp only [attemptLoop]
      rcases A (retry + 1) with ⟨status, wv⟩ | _
      · by_cases h200 : status == 200 <;> by_cases hwv : wv = true <;>
          by_cases h2 : 0 < rem2 <;> simp [h200, hwv, h2]
      · by_cases h2 : 0 < rem2 <;> simp [h2]
    simp only [attemptLoop]
    rcases A retry with ⟨status, wv⟩ | _
    · by_cases h200 : status == 200 <;> by_cases hwv : wv = true <;>
        by_cases hrem : 0 < rem <;>
        simp only [h200, hwv, hrem, if_true, if_false, Bool.false_eq_true] <;>
        try rfl
      all_goals {
        first
        | (rw [ih (retry + 1)]
           have h1 := hpos hrem
           rw [show (attemptLoop A rem (retry + 1)).attemptsMade + 1 - 1
                 = ((attemptLoop A rem (retry + 1)).attemptsMade - 1) + 1 by omega]
           simp [List.range'_succ])
        | (have h0 : rem = 0 := by omega
           subst h0
           simp [attemptLoop])
      }
    · by_cases hrem : 0 < rem <;>
        simp only [hrem, if_true, if_false] <;> try rfl
      all_goals {
        first
        | (rw [ih (retry + 1)]
           have h1 := hpos hrem
           rw [show (attemptLoop A rem (retry + 1)).attemptsMade + 1 - 1
                 = ((attemptLoop A rem (retry + 1)).attemptsMade - 1) + 1 by omega]
           simp [List.range'_succ])
        | (have h0 : rem = 0 := by omega
           subst h0
           simp [attemptLoop])
      }

theorem attemptLoop_all_fail (A : Nat → AttemptOutcome) :
    ∀ rem retry, (∀ i, retry ≤ i → i < retry + rem → attemptSuccess (A i) = false) →
      (attemptLoop A rem retry).result = false
      ∧ (attemptLoop A rem retry).attemptsMade = rem := by
  intro rem
  induction rem with
  | zero => intro retry _; simp [attemptLoop]
  | succ rem ih =>
    intro retry hfail
    have hhd : attemptSuccess (A retry) = false := hfail retry le_rfl (by omega)
    have htl := ih (retry + 1) (fun i h1 h2 => hfail i (by omega) (by omega))
    simp only [attemptLoop]
    rcases hA : A retry with ⟨status, wv⟩ | _
    · have : (status == 200 && wv) = false := by
        have := hhd; rw [hA] at this; simpa [attemptSuccess] using this
      by_cases h200 : status == 200
      · have hwv : wv = false := by simp [h200] at this; exact this
        subst hwv
        by_cases hrem : 0 < rem <;> simp [h200, hrem, htl.1, htl.2]
      · by_cases hrem : 0 < rem <;> simp [h200, hrem, htl.1, htl.2]
    · by_cases hrem : 0 < rem <;> simp [hrem, htl.1, htl.2]

theorem attemptLoop_writes (A : Nat → AttemptOutcome) :
    ∀ rem retry, (attemptLoop A rem retry).writes
      = (List.range' retry (attemptLoop A rem retry).attemptsMade).countP
          (fun i => attemptIs200 (A i)) := by
  intro rem
  induction rem with
  | zero => intro retry; simp [attemptLoop]
  | succ rem ih =>
    intro retry
    simp only [attemptLoop]
    rcases hA : A retry with ⟨status, wv⟩ | _
    · by_cases h200 : status == 200 <;> by_cases hwv : wv = true <;>
        by_cases hrem : 0 < rem <;>
        simp only [h200, hwv, hrem, if_true, if_false, Bool.false_eq_true] <;>
        rw [List.range'_succ, List.countP_cons] <;>
        simp [attemptIs200, hA, h200, ih (retry + 1), Nat.add_comm]
    · by_cases hrem : 0 < rem <;>
        simp only [hrem, if_true, if_false] <;>
        rw [List.range'_succ, List.countP_cons] <;>
        simp [attemptIs200, hA, ih (retry + 1)]

/-- Claim C10: when the pre-loop phase of `download_cmip6_image` (image
metadata, date, download-URL resolution) raises, the outer handler
returns a failure outcome at once: no HTTP attempt is issued, no backoff
sleep runs, and no file is written.  The 3-attempt retry budget applies
only to the HTTP request / write / verification loop, which runs exactly
when the pre-phase succeeds. -/
theorem c10_prephase_failure (A : Nat → AttemptOutcome) :
    download_cmip6_image false A
        = { result := false, sleeps := [], attemptsMade := 0, writes := 0 }
      ∧ download_cmip6_image true A = attemptLoop A 3 0 :=
  ⟨rfl, rfl⟩

/-- Claim C2: the retry loop of `download_cmip6_image` makes at most 3
attempts; its backoff sleeps are `2 ^ attemptIndex` seconds after each
failed non-final attempt, hence `[]`, `[1]` or `[1, 2]` and
non-decreasing; exhausting every attempt returns a failed outcome
(`result = false`) after exactly 3 attempts, raised errors included;
a fetch whose attempts all return HTTP 500 yields
`⟨false, [1, 2], 3, 0⟩`; a raised attempt is retried; and a 5-record
listing whose third record's fetch settles falsy yields final stats
`{total := 5, successful := 4, failed := 1}`. -/
theorem c2_retry_policy (A : Nat → AttemptOutcome) :
    (download_cmip6_image true A).attemptsMade ≤ 3
    ∧ ((download_cmip6_image true A).sleeps = []
        ∨ (download_cmip6_image true A).sleeps = [1]
        ∨ (download_cmip6_image true A).sleeps = [1, 2])
    ∧ List.Chain' (fun a b => a ≤ b) (download_cmip6_image true A).sleeps
    ∧ ((∀ i, i < 3 → attemptSuccess (A i) = false) →
        (download_cmip6_image true A).result = false
        ∧ (download_cmip6_image true A).attemptsMade = 3)
    ∧ download_cmip6_image true (fun _ => AttemptOutcome.http 500 false)
        = { result := false, sleeps := [1, 2], attemptsMade := 3, writes := 0 }
    ∧ download_cmip6_image true
          (fun i => if i = 0 then AttemptOutcome.raised else AttemptOutcome.http 200 true)
        = { result := true, sleeps := [1], attemptsMade := 2, writes := 1 }
    ∧ (export_cmip6_collection_parallel envB "b" (List.replicate 5 recPlain) 10).1
        = { total := 5, successful := 4, failed := 1 } := by
  have hle : (download_cmip6_image true A).attemptsMade ≤ 3 :=
    attemptLoop_attempts_le A 3 0
  have hsl : (download_cmip6_image true A).sleeps = []
      ∨ (download_cmip6_image true A).sleeps = [1]
      ∨ (download_cmip6_image true A).sleeps = [1, 2] := by
    have h := attemptLoop_sleeps A 3 0
    show (attemptLoop A 3 0).sleeps = _ ∨ (attemptLoop A 3 0).sleeps = _
      ∨ (attemptLoop A 3 0).sleeps = _
    rcases hm : (attemptLoop A 3 0).attemptsMade with _ | _ | _ | _ | m
    · rw [h, hm]; left; rfl
    · rw [h, hm]; left; rfl
    · rw [h, hm]; right; left; rfl
    · rw [h, hm]; right; right; rfl
    · exfalso; have := attemptLoop_attempts_le A 3 0; omega
  refine ⟨hle, hsl, ?_, ?_, by decide, by decide, by decide⟩
  · rcases hsl with h | h | h <;> rw [h] <;>
      simp [List.chain'_cons, List.chain'_singleton]
  · intro hfail
    exact attemptLoop_all_fail A 3 0 (fun i h1 h2 => hfail i (by omega))

/-- Witness for C2 at the always-HTTP-500 attempt function. -/
theorem c2_retry_policy_witness :
    (download_cmip6_image true (fun _ => AttemptOutcome.http 500 false)).attemptsMade ≤ 3
    ∧ ((download_cmip6_image true (fun _ => AttemptOutcome.http 500 false)).result = false
        ∧ (download_cmip6_image true (fun _ => AttemptOutcome.http 500 false)).attemptsMade
            = 3) :=
  ⟨(c2_retry_policy (fun _ => AttemptOutcome.http 500 false)).1,
    (c2_retry_policy (fun _ => AttemptOutcome.http 500 false)).2.2.2.1
      (fun i _ => by decide)⟩

/-! ### Lemmas about the concurrency gate -/

theorem gate_invariant {n k : Nat} {s : GateState} (h : GateReachable n k s) :
    s.running + s.permits = k ∧ s.pending + s.running + s.finished = n := by
  induction h with
  | init => simp [gateInit]
  | step _ hstep ih =>
    cases hstep with
    | start p r c f => simp only at ih ⊢; omega
    | settle p r c f => simp only at ih ⊢; omega

/-- Claim C4: in every state reachable during a batch's semaphore-gated
dispatch of `n` fetches under `max_concurrent = k`, at most `k` fetcher
invocations are simultaneously unresolved; and (for `k > 0`) every
maximal execution settles all `n` dispatched fetches: a state with no
enabled step has every task finished.  The `settle` step models the
`async with` block releasing its permit unconditionally, whether the
inner fetch returned or raised. -/
theorem c4_concurrency_bound (n k : Nat) (s : GateState) (hk : 0 < k)
    (hs : GateReachable n k s) :
    s.running ≤ k ∧ ((∀ t, ¬ GateStep s t) → s.finished = n) := by
  obtain ⟨h1, h2⟩ := gate_invariant hs
  refine ⟨by omega, ?_⟩
  intro hterm
  obtain ⟨p, r, c, f⟩ := s
  simp only at h1 h2 ⊢
  rcases r with _ | r
  · rcases p with _ | p
    · omega
    · rcases c with _ | c
      · omega
      · exact absurd (GateStep.start p 0 c f) (hterm _)
  · exact absurd (GateStep.settle p r c f) (hterm _)

/-- Witness for C4: the initial state of 2 tasks under 1 permit. -/
theorem c4_concurrency_bound_witness :
    (gateInit 2 1).running ≤ 1
    ∧ ((∀ t, ¬ GateStep (gateInit 2 1) t) → (gateInit 2 1).finished = 2) :=
  c4_concurrency_bound 2 1 (gateInit 2 1) (by decide) GateReachable.init

/-! ### Lemmas about the batch orchestrator -/

theorem countP_not_add {α : Type _} (p : α → Bool) (l : List α) :
    l.countP (fun a => !p a) + l.countP p = l.length := by
  induction l with
  | nil => simp
  | cons a l ih =>
    rw [List.countP_cons, List.countP_cons]
    cases h : p a <;> simp [h] <;> omega

theorem processSlice_char (env : OrchEnv) (base : String) :
    ∀ (slice : List ImgRecord) (g : Nat),
      processSlice env base slice g =
        { skipped := ((slice.enumFrom g).filter (recSkips env base)).map Prod.fst,
          dispatched :=
            ((slice.enumFrom g).filter (fun p => !recSkips env base p)).map Prod.fst,
          succ := (slice.enumFrom g).countP (fun p => !recFails env base p),
          failed := (slice.enumFrom g).countP (recFails env base) } := by
  intro slice
  induction slice with
  | nil => intro g; rfl
  | cons r rs ih =>
    intro g
    simp only [processSlice, ih, List.enumFrom_cons, List.filter_cons, List.countP_cons]
    by_cases hskip : skipCheck env base r g
    · have h1 : recSkips env base (g, r) = true := hskip
      have h2 : recFails env base (g, r) = false := by simp [recFails, h1]
      simp [hskip, h1, h2]
    · have h1 : recSkips env base (g, r) = false := by
        simpa [recSkips] using hskip
      cases hf : env.fetch g with
      | ok =>
        have h2 : recFails env base (g, r) = false := by simp [recFails, h1, hf]
        simp [hskip, hf, h1, h2]
      | fail =>
        have h2 : recFails env base (g, r) = true := by simp [recFails, h1, hf]
        simp [hskip, hf, h1, h2]
      | exn =>
        have h2 : recFails env base (g, r) = true := by simp [recFails, h1, hf]
        simp [hskip, hf, h1, h2]

theorem numBatches_zero (bs : Nat) (hbs : 0 < bs) : numBatches 0 bs = 0 := by
  unfold numBatches
  exact Nat.div_eq_of_lt (by omega)

theorem numBatches_step (n bs : Nat) (hbs : 0 < bs) (hn : 0 < n) :
    numBatches n bs = numBatches (n - bs) bs + 1 := by
  unfold numBatches
  rcases le_or_lt bs n with h | h
  · have harg : n + bs - 1 = (n - bs + bs - 1) + bs := by omega
    rw [harg, Nat.add_div_right _ hbs]
  · have h0 : n - bs = 0 := by omega
    rw [h0]
    have h1 : (0 + bs - 1) / bs = 0 := Nat.div_eq_of_lt (by omega)
    rw [h1]
    have harg : n + bs - 1 = (n - 1) + bs := by omega
    rw [harg, Nat.add_div_right _ hbs]
    have h2 : (n - 1) / bs = 0 := Nat.div_eq_of_lt (by omega)
    omega

theorem numBatches_pos_of_lt {n bs k : Nat} (hbs : 0 < bs)
    (h : k < numBatches n bs) : 0 < n := by
  by_contra h0
  have hn : n = 0 := by omega
  rw [hn, numBatches_zero bs hbs] at h
  omega

theorem runAux_nil (env : OrchEnv) (base : String) (bs total fuel start s f : Nat) :
    runAux env base bs total fuel [] start s f = ((s, f), []) := by
  cases fuel <;> rfl

theorem runAux_cons (env : OrchEnv) (base : String) (b total fuel : Nat)
    (r : ImgRecord) (rs : List ImgRecord) (start s f : Nat) :
    runAux env base (b + 1) total (fuel + 1) (r :: rs) start s f
      = ((runAux env base (b + 1) total fuel (rs.drop b)
            (start + (r :: rs.take b).length)
            (s + (processSlice env base (r :: rs.take b) start).succ)
            (f + (processSlice env base (r :: rs.take b) start).failed)).1,
         { batchStart := start,
           sliceLen := (r :: rs.take b).length,
           skipped := (processSlice env base (r :: rs.take b) start).skipped,
           dispatched := (processSlice env base (r :: rs.take b) start).dispatched,
           cooldownAfter := decide (start + (r :: rs.take b).length < total),
           statsAfter := (s + (processSlice env base (r :: rs.take b) start).succ,
                          f + (processSlice env base (r :: rs.take b) start).failed) }
           :: (runAux env base (b + 1) total fuel (rs.drop b)
                (start + (r :: rs.take b).length)
                (s + (processSlice env base (r :: rs.take b) start).succ)
                (f + (processSlice env base (r :: rs.take b) start).failed)).2) := rfl


theorem runAux_char (env : OrchEnv) (base : String) (bs total : Nat) (hbs : 0 < bs) :
    ∀ (fuel : Nat) (rest : List ImgRecord) (start s f : Nat),
      rest.length ≤ fuel → total = start + rest.length → s + f ≤ start →
      (runAux env base bs total fuel rest start s f).1.1
          = s + (rest.enumFrom start).countP (fun p => !recFails env base p)
      ∧ (runAux env base bs total fuel rest start s f).1.2
          = f + (rest.enumFrom start).countP (recFails env base)
      ∧ logsSkipped (runAux env base bs total fuel rest start s f).2
          = ((rest.enumFrom start).filter (recSkips env base)).map Prod.fst
      ∧ logsDispatched (runAux env base bs total fuel rest start s f).2
          = ((rest.enumFrom start).filter (fun p => !recSkips env base p)).map Prod.fst
      ∧ (∀ log ∈ (runAux env base bs total fuel rest start s f).2,
          log.statsAfter.1 + log.statsAfter.2 ≤ total)
      ∧ (runAux env base bs total fuel rest start s f).2.length
          = numBatches rest.length bs
      ∧ (∀ k (hk : k < (runAux env base bs total fuel rest start s f).2.length),
          ((runAux env base bs total fuel rest start s f).2.get ⟨k, hk⟩).batchStart
              = start + k * bs
          ∧ ((runAux env base bs total fuel rest start s f).2.get ⟨k, hk⟩).sliceLen
              = min bs (rest.length - k * bs)
          ∧ ((runAux env base bs total fuel rest start s f).2.get ⟨k, hk⟩).cooldownAfter
              = decide (start + k * bs + bs < total)) := by
  intro fuel
  induction fuel with
  | zero =>
    intro rest start s f hfuel htot hsf
    have hrest : rest = [] := List.length_eq_zero.mp (by omega)
    subst hrest
    simp [runAux_nil, logsSkipped, logsDispatched, numBatches_zero bs hbs]
  | succ fuel ih =>
    intro rest start s f hfuel htot hsf
    cases rest with
    | nil =>
      simp [runAux_nil, logsSkipped, logsDispatched, numBatches_zero bs hbs]
    | cons r rs =>
      obtain ⟨b, rfl⟩ : ∃ b, bs = b + 1 := ⟨bs - 1, by omega⟩
      have hE := runAux_cons env base b total fuel r rs start s f
      rw [processSlice_char env base] at hE
      rw [hE]
      -- facts about the slice and the remainder
      have happ : (r :: rs.take b) ++ rs.drop b = r :: rs := by
        rw [List.cons_append, List.take_append_drop]
      have hlen_slice : (r :: rs.take b).length = min (b + 1) (r :: rs).length := by
        simp [List.length_take, Nat.succ_min_succ]
      have hlen_rest2 : (rs.drop b).length = (r :: rs).length - (b + 1) := by
        simp [List.length_drop]
      have hlen_sum : (r :: rs.take b).length + (rs.drop b).length = (r :: rs).length := by
        rw [← List.length_append, happ]
      have henum : (r :: rs).enumFrom start
          = (r :: rs.take b).enumFrom start
            ++ (rs.drop b).enumFrom (start + (r :: rs.take b).length) := by
        conv_lhs => rw [← happ]
        rw [List.enumFrom_append]
      have hslice_sum :
          ((r :: rs.take b).enumFrom start).countP (fun p => !recFails env base p)
            + ((r :: rs.take b).enumFrom start).countP (recFails env base)
          = (r :: rs.take b).length := by
        rw [countP_not_add (recFails env base), List.enumFrom_length]
      -- the inductive hypothesis for the remaining batches
      have hIH := ih (rs.drop b) (start + (r :: rs.take b).length)
        (s + ((r :: rs.take b).enumFrom start).countP (fun p => !recFails env base p))
        (f + ((r :: rs.take b).enumFrom start).countP (recFails env base))
        (by have h1 : (rs.drop b).length ≤ rs.length := by
              simp [List.length_drop]
            have h2 : (r :: rs).length ≤ fuel + 1 := hfuel
            simp only [List.length_cons] at h2
            omega)
        (by omega)
        (by omega)
      obtain ⟨ih1, ih2, ih3, ih4, ih5, ih6, ih7⟩ := hIH
      refine ⟨?_, ?_, ?_, ?_, ?_, ?_, ?_⟩
      · show (runAux env base (b + 1) total fuel (rs.drop b)
            (start + (r :: rs.take b).length)
            (s + ((r :: rs.take b).enumFrom start).countP (fun p => !recFails env base p))
            (f + ((r :: rs.take b).enumFrom start).countP (recFails env base))).1.1 = _
        rw [ih1, henum, List.countP_append]
        omega
      · show (runAux env base (b + 1) total fuel (rs.drop b)
            (start + (r :: rs.take b).length)
            (s + ((r :: rs.take b).enumFrom start).countP (fun p => !recFails env base p))
            (f + ((r :: rs.take b).enumFrom start).countP (recFails env base))).1.2 = _
        rw [ih2, henum, List.countP_append]
        omega
      · have ih3s := ih3
        simp only [logsSkipped] at ih3s ⊢
        simp only [List.map_cons, List.flatten_cons]
        rw [ih3s, henum, List.filter_append, List.map_append]
      · have ih4s := ih4
        simp only [logsDispatched] at ih4s ⊢
        simp only [List.map_cons, List.flatten_cons]
        rw [ih4s, henum, List.filter_append, List.map_append]
      · intro log hmem
        rcases List.mem_cons.mp hmem with h | h
        · subst h
          simp only
          omega
        · exact ih5 log h
      · rw [numBatches_step (r :: rs).length (b + 1) hbs (by simp), ← hlen_rest2, ← ih6]
        simp
      · intro k hk
        cases k with
        | zero =>
          refine ⟨by simp, ?_, ?_⟩
          · simp only [List.get_eq_getElem, List.getElem_cons_zero]
            rw [hlen_slice]
            congr 1
            omega
          · simp only [List.get_eq_getElem, List.getElem_cons_zero]
            rw [decide_eq_decide, hlen_slice]
            omega
        | succ k =>
          have hk2 : k < (runAux env base (b + 1) total fuel (rs.drop b)
              (start + (r :: rs.take b).length)
              (s + ((r :: rs.take b).enumFrom start).countP (fun p => !recFails env base p))
              (f + ((r :: rs.take b).enumFrom start).countP (recFails env base))).2.length :=
            Nat.lt_of_succ_lt_succ hk
          have hposr2 : 0 < (rs.drop b).length :=
            numBatches_pos_of_lt hbs (ih6 ▸ hk2)
          have hLgt : b + 1 < (r :: rs).length := by
            rw [hlen_rest2] at hposr2
            omega
          have hslb : (r :: rs.take b).length = b + 1 := by
            rw [hlen_slice]
            omega
          obtain ⟨ha1, ha2, ha3⟩ := ih7 k hk2
          simp only [List.get_eq_getElem] at ha1 ha2 ha3 ⊢
          simp only [List.getElem_cons_succ]
          refine ⟨?_, ?_, ?_⟩
          · rw [ha1, hslb, Nat.succ_mul]
            generalize k * (b + 1) = m
            omega
          · rw [ha2, hlen_rest2]
            congr 1
            rw [Nat.sub_sub, Nat.succ_mul, Nat.add_comm (b + 1) (k * (b + 1))]
          · rw [ha3, hslb, decide_eq_decide, Nat.succ_mul]
            generalize k * (b + 1) = m
            omega

theorem mem_map_fst_filter_enum {α : Type _} (P : Nat × α → Bool) (l : List α)
    (j : Nat) (hj : j < l.length) :
    (j ∈ ((l.enumFrom 0).filter P).map Prod.fst) ↔ P (j, l.get ⟨j, hj⟩) = true := by
  constructor
  · intro h
    obtain ⟨p, hp, hfst⟩ := List.mem_map.mp h
    obtain ⟨hpmem, hP⟩ := List.mem_filter.mp hp
    obtain ⟨p1, p2⟩ := p
    obtain ⟨h0, h1, h2⟩ := List.mem_enumFrom hpmem
    simp only at hfst h2
    subst hfst
    rw [show l.get ⟨p1, hj⟩ = p2 from by simp [List.get_eq_getElem, h2]]
    exact hP
  · intro hP
    refine List.mem_map.mpr ⟨(j, l.get ⟨j, hj⟩), List.mem_filter.mpr ⟨?_, hP⟩, rfl⟩
    have hjl : j < (l.enumFrom 0).length := by
      rw [List.enumFrom_length]
      exact hj
    have h1 : (l.enumFrom 0)[j] = (0 + j, l[j]) := List.getElem_enumFrom l 0 j hjl
    have h2 : (l.enumFrom 0)[j] ∈ l.enumFrom 0 := List.getElem_mem hjl
    rw [h1] at h2
    simpa [List.get_eq_getElem] using h2

theorem lt_numBatches_iff {bs : Nat} (hbs : 0 < bs) (k n : Nat) :
    k + 1 < numBatches n bs ↔ k * bs + bs < n := by
  unfold numBatches
  rw [Nat.lt_iff_add_one_le, show k + 1 + 1 = k + 2 from rfl,
    Nat.le_div_iff_mul_le hbs, show (k + 2) * bs = k * bs + 2 * bs from by ring]
  generalize k * bs = m
  omega

theorem export_pos (env : OrchEnv) (base : String) (listing : List ImgRecord)
    (bs : Nat) (hl : listing ≠ []) (hbs : bs ≠ 0) :
    export_cmip6_collection_parallel env base listing bs
      = ({ total := listing.length,
           successful :=
             (runAux env base bs listing.length listing.length listing 0 0 0).1.1,
           failed :=
             (runAux env base bs listing.length listing.length listing 0 0 0).1.2 },
         (runAux env base bs listing.length listing.length listing 0 0 0).2) := by
  unfold export_cmip6_collection_parallel
  have h0 : ¬ listing.length = 0 := by
    simpa [List.length_eq_zero] using hl
  simp [h0, hbs]

/-- The orchestrator's observable behaviour, fully characterised: the
final counters fold the per-record outcome over the enumerated listing,
the skip and dispatch sets are the corresponding filters, every
intermediate cumulative counter pair is bounded by the total, and the
batch structure follows `range(0, total, batch_size)`. -/
theorem export_char (env : OrchEnv) (base : String) (listing : List ImgRecord)
    (bs : Nat) (hbs : 0 < bs) :
    (export_cmip6_collection_parallel env base listing bs).1.total = listing.length
    ∧ (export_cmip6_collection_parallel env base listing bs).1.successful
        = (listing.enumFrom 0).countP (fun p => !recFails env base p)
    ∧ (export_cmip6_collection_parallel env base listing bs).1.failed
        = (listing.enumFrom 0).countP (recFails env base)
    ∧ logsSkipped (export_cmip6_collection_parallel env base listing bs).2
        = ((listing.enumFrom 0).filter (recSkips env base)).map Prod.fst
    ∧ logsDispatched (export_cmip6_collection_parallel env base listing bs).2
        = ((listing.enumFrom 0).filter (fun p => !recSkips env base p)).map Prod.fst
    ∧ (∀ log ∈ (export_cmip6_collection_parallel env base listing bs).2,
        log.statsAfter.1 + log.statsAfter.2 ≤ listing.length)
    ∧ (export_cmip6_collection_parallel env base listing bs).2.length
        = numBatches listing.length bs
    ∧ (∀ k (hk : k < (export_cmip6_collection_parallel env base listing bs).2.length),
        ((export_cmip6_collection_parallel env base listing bs).2.get ⟨k, hk⟩).batchStart
            = k * bs
        ∧ ((export_cmip6_collection_parallel env base listing bs).2.get ⟨k, hk⟩).sliceLen
            = min bs (listing.length - k * bs)
        ∧ ((export_cmip6_collection_parallel env base listing bs).2.get
              ⟨k, hk⟩).cooldownAfter
            = decide (k * bs + bs < listing.length)) := by
  by_cases hl : listing = []
  · subst hl
    refine ⟨rfl, rfl, rfl, rfl, rfl, ?_, ?_, ?_⟩
    · intro log hmem
      simp [export_cmip6_collection_parallel] at hmem
    · simp [export_cmip6_collection_parallel, numBatches_zero bs hbs]
    · intro k hk
      simp [export_cmip6_collection_parallel] at hk
  · have hE := export_pos env base listing bs hl (by omega)
    have hC := runAux_char env base bs listing.length hbs listing.length listing 0 0 0
      le_rfl (by omega) (by omega)
    obtain ⟨h1, h2, h3, h4, h5, h6, h7⟩ := hC
    rw [hE]
    refine ⟨rfl, by simpa using h1, by simpa using h2, by simpa using h3,
      by simpa using h4, h5, h6, ?_⟩
    intro k hk
    obtain ⟨ha1, ha2, ha3⟩ := h7 k hk
    exact ⟨by simpa using ha1, ha2, by simpa using ha3⟩

/-- Claim C1: for every listing processed to completion (a positive batch
size), the final stats satisfy `successful + failed = total` with
`total` the listing length; the `successful` counter folds exactly the
records that are skipped or fetched truthily and the `failed` counter
exactly the dispatched records whose fetch settles falsy or raises; at
every batch boundary the cumulative counters satisfy
`successful + failed ≤ total`; and an empty listing yields all three
counters zero. -/
theorem c1_conservation (env : OrchEnv) (base : String) (listing : List ImgRecord)
    (bs : Nat) (hbs : 0 < bs) :
    (export_cmip6_collection_parallel env base listing bs).1.total = listing.length
    ∧ (export_cmip6_collection_parallel env base listing bs).1.successful
        + (export_cmip6_collection_parallel env base listing bs).1.failed
        = listing.length
    ∧ (export_cmip6_collection_parallel env base listing bs).1.successful
        = (listing.enumFrom 0).countP (fun p => !recFails env base p)
    ∧ (export_cmip6_collection_parallel env base listing bs).1.failed
        = (listing.enumFrom 0).countP (recFails env base)
    ∧ (∀ log ∈ (export_cmip6_collection_parallel env base listing bs).2,
        log.statsAfter.1 + log.statsAfter.2 ≤ listing.length)
    ∧ (listing = [] →
        export_cmip6_collection_parallel env base listing bs
          = ({ total := 0, successful := 0, failed := 0 }, [])) := by
  obtain ⟨h1, h2, h3, h4, h5, h6, h7, h8⟩ := export_char env base listing bs hbs
  refine ⟨h1, ?_, h2, h3, h6, ?_⟩
  · rw [h2, h3]
    have := countP_not_add (recFails env base) (listing.enumFrom 0)
    rw [List.enumFrom_length] at this
    exact this
  · intro hl
    subst hl
    rfl

/-- Witness for C1 on the 5-record Scenario B listing. -/
theorem c1_conservation_witness :
    (export_cmip6_collection_parallel envB "b" (List.replicate 5 recPlain) 10).1.successful
      + (export_cmip6_collection_parallel envB "b" (List.replicate 5 recPlain) 10).1.failed
      = 5 := by
  have h := (c1_conservation envB "b" (List.replicate 5 recPlain) 10 (by decide)).2.1
  simpa using h

/-- Claim C8: an empty listing returns `{total := 0, successful := 0,
failed := 0}` at once: no batch is run, nothing is skipped or
dispatched, and no inter-batch cooldown fires. -/
theorem c8_empty_listing (env : OrchEnv) (base : String) (bs : Nat) :
    export_cmip6_collection_parallel env base [] bs
        = ({ total := 0, successful := 0, failed := 0 }, [])
    ∧ logsDispatched (export_cmip6_collection_parallel env base [] bs).2 = []
    ∧ logsSkipped (export_cmip6_collection_parallel env base [] bs).2 = []
    ∧ (export_cmip6_collection_parallel env base [] bs).2.filter
        (fun log => log.cooldownAfter) = [] :=
  ⟨rfl, rfl, rfl, rfl⟩

/-- Claim C3: if every record's computed destination path carries a file
larger than 1024 bytes (the state a fully successful first run leaves
behind), a second orchestrator run counts every record successful
through the skip path alone: nothing fails, nothing is dispatched to
the fetcher, and the skipped indices are exactly the whole listing. -/
theorem c3_idempotence (env : OrchEnv) (base : String) (listing : List ImgRecord)
    (bs : Nat) (hbs : 0 < bs)
    (hfull : ∀ j (hj : j < listing.length),
      ∃ sz, env.fs (downloadPath base env.fmtTs (listing.get ⟨j, hj⟩) j) = some sz
        ∧ 1024 < sz) :
    (export_cmip6_collection_parallel env base listing bs).1.successful = listing.length
    ∧ (export_cmip6_collection_parallel env base listing bs).1.failed = 0
    ∧ logsDispatched (export_cmip6_collection_parallel env base listing bs).2 = []
    ∧ logsSkipped (export_cmip6_collection_parallel env base listing bs).2
        = List.range listing.length := by
  obtain ⟨h1, h2, h3, h4, h5, h6, h7, h8⟩ := export_char env base listing bs hbs
  have hall : ∀ p ∈ listing.enumFrom 0, recSkips env base p = true := by
    intro p hp
    obtain ⟨p1, p2⟩ := p
    obtain ⟨hm0, hm1, hm2⟩ := List.mem_enumFrom hp
    have hj : p1 < listing.length := by omega
    obtain ⟨sz, hfs, hsz⟩ := hfull p1 hj
    have hget : listing.get ⟨p1, hj⟩ = p2 := by
      simp [List.get_eq_getElem, hm2]
    rw [hget] at hfs
    simp [recSkips, skipCheck, hfs, hsz]
  have hfail : ∀ p ∈ listing.enumFrom 0, recFails env base p = false := by
    intro p hp
    simp [recFails, hall p hp]
  refine ⟨?_, ?_, ?_, ?_⟩
  · rw [h2, List.countP_eq_length.mpr (fun p hp => by simp [hfail p hp]),
      List.enumFrom_length]
  · rw [h3, List.countP_eq_zero.mpr (fun p hp => by simp [hfail p hp])]
  · rw [h5, List.filter_eq_nil_iff.mpr (fun p hp => by simp [hall p hp]), List.map_nil]
  · rw [h4, List.filter_eq_self.mpr hall, List.enumFrom_map_fst, ← List.range_eq_range']

/-- A run-2 environment whose filesystem reports a 2048-byte file at
every path. -/
def envFull : OrchEnv :=
  { fmtTs := fun _ => "", fs := fun _ => some 2048, fetch := fun _ => FetchRes.ok }

/-- Witness for C3 on a 3-record listing over an all-populated
filesystem. -/
theorem c3_idempotence_witness :
    (export_cmip6_collection_parallel envFull "b" (List.replicate 3 recPlain) 2).1.failed
        = 0
    ∧ logsDispatched
        (export_cmip6_collection_parallel envFull "b" (List.replicate 3 recPlain) 2).2
        = [] := by
  have h := c3_idempotence envFull "b" (List.replicate 3 recPlain) 2 (by decide)
    (fun j hj => ⟨2048, rfl, by decide⟩)
  exact ⟨h.2.1, h.2.2.1⟩

/-- Claim C6: the orchestrator partitions the listing into consecutive
slices of `batchSize`: batch `k` starts at listing index
`k * batchSize` and has length `min batchSize (total - k * batchSize)`
(so 25 records at the default size 10 give slices 10, 10, 5), the
number of batches is `ceil(total / batchSize)`, batches are processed
strictly in listing order (the log list is built by the sequential fold
of the loop), and the fixed 1-second cooldown runs after a batch exactly
when it is not the final one. -/
theorem c6_batch_partitioning (env : OrchEnv) (base : String)
    (listing : List ImgRecord) (bs : Nat) (hbs : 0 < bs) :
    (export_cmip6_collection_parallel env base listing bs).2.length
        = numBatches listing.length bs
    ∧ (∀ k (hk : k < (export_cmip6_collection_parallel env base listing bs).2.length),
        ((export_cmip6_collection_parallel env base listing bs).2.get
              ⟨k, hk⟩).batchStart = k * bs
        ∧ ((export_cmip6_collection_parallel env base listing bs).2.get
              ⟨k, hk⟩).sliceLen = min bs (listing.length - k * bs)
        ∧ (((export_cmip6_collection_parallel env base listing bs).2.get
              ⟨k, hk⟩).cooldownAfter = true
            ↔ k + 1 < (export_cmip6_collection_parallel env base listing bs).2.length))
    ∧ ((export_cmip6_collection_parallel envB "b" (List.replicate 25 recPlain) 10).2.map
          (fun log => (log.batchStart, log.sliceLen, log.cooldownAfter)))
        = [(0, 10, true), (10, 10, true), (20, 5, false)] := by
  obtain ⟨h1, h2, h3, h4, h5, h6, h7, h8⟩ := export_char env base listing bs hbs
  refine ⟨h7, ?_, by decide⟩
  intro k hk
  obtain ⟨ha1, ha2, ha3⟩ := h8 k hk
  refine ⟨ha1, ha2, ?_⟩
  rw [ha3, h7, decide_eq_true_iff]
  exact (lt_numBatches_iff hbs k listing.length).symm

/-- Witness for C6 on the 25-record listing at batch size 10. -/
theorem c6_batch_partitioning_witness :
    (export_cmip6_collection_parallel envB "b" (List.replicate 25 recPlain) 10).2.length
      = numBatches 25 10 := by
  have h := (c6_batch_partitioning envB "b" (List.replicate 25 recPlain) 10
    (by decide)).1
  simpa using h

/-- An environment whose filesystem reports a 10-byte (small) file at
every path and whose fetches never succeed. -/
def envSmall : OrchEnv :=
  { fmtTs := fun _ => "", fs := fun _ => some 10, fetch := fun _ => FetchRes.fail }

/-- Counterexample to C5 as stated: a record whose path holds a 10-byte
file is dispatched, but when every HTTP attempt of its fetch returns 500
the fetcher performs zero writes, so the small file is *not*
overwritten — the overwrite only happens on an attempt that reaches the
HTTP-200 write path. -/
theorem c5_counterexample :
    0 ∈ logsDispatched
        (export_cmip6_collection_parallel envSmall "b" [recPlain] 10).2
    ∧ (download_cmip6_image true (fun _ => AttemptOutcome.http 500 false)).writes
        = 0 := by
  constructor <;> decide

/-- Claim C5 (amended): a record whose computed path holds a file larger
than 1024 bytes is skipped — it appears among the skipped indices, never
among the dispatched ones, and does not count toward `failed` (so its
unit lands in `successful`); a record whose path holds a file of at most
1024 bytes is dispatched to the fetcher; and the fetcher writes the
destination (overwriting the small file) exactly on the attempts whose
HTTP response has status 200, so a fetch that never receives a 200
leaves the small file in place. -/
theorem c5_skip_precheck (env : OrchEnv) (base : String) (listing : List ImgRecord)
    (bs : Nat) (hbs : 0 < bs) (j : Nat) (hj : j < listing.length) :
    (∀ sz, env.fs (downloadPath base env.fmtTs (listing.get ⟨j, hj⟩) j) = some sz →
      1024 < sz →
        j ∈ logsSkipped (export_cmip6_collection_parallel env base listing bs).2
        ∧ j ∉ logsDispatched (export_cmip6_collection_parallel env base listing bs).2
        ∧ recFails env base (j, listing.get ⟨j, hj⟩) = false)
    ∧ (∀ sz, env.fs (downloadPath base env.fmtTs (listing.get ⟨j, hj⟩) j) = some sz →
      sz ≤ 1024 →
        j ∈ logsDispatched (export_cmip6_collection_parallel env base listing bs).2
        ∧ j ∉ logsSkipped (export_cmip6_collection_parallel env base listing bs).2)
    ∧ (∀ A, (download_cmip6_image true A).writes
        = (List.range' 0 (download_cmip6_image true A).attemptsMade).countP
            (fun i => attemptIs200 (A i))) := by
  obtain ⟨h1, h2, h3, h4, h5, h6, h7, h8⟩ := export_char env base listing bs hbs
  have hskipped : ∀ i,
      i ∈ logsSkipped (export_cmip6_collection_parallel env base listing bs).2
        ↔ i ∈ ((listing.enumFrom 0).filter (recSkips env base)).map Prod.fst := by
    intro i
    rw [h4]
  have hdispatched : ∀ i,
      i ∈ logsDispatched (export_cmip6_collection_parallel env base listing bs).2
        ↔ i ∈ ((listing.enumFrom 0).filter
            (fun p => !recSkips env base p)).map Prod.fst := by
    intro i
    rw [h5]
  refine ⟨?_, ?_, fun A => attemptLoop_writes A 3 0⟩
  · intro sz hfs hsz
    have hfs2 : env.fs (downloadPath base env.fmtTs listing[j] j) = some sz := by
      simpa [List.get_eq_getElem] using hfs
    have hskc : skipCheck env base listing[j] j = true := by
      simp [skipCheck, hfs2, hsz]
    refine ⟨?_, ?_, ?_⟩
    · rw [hskipped, mem_map_fst_filter_enum (recSkips env base) listing j hj]
      simp [recSkips, List.get_eq_getElem, hskc]
    · rw [hdispatched,
        mem_map_fst_filter_enum (fun p => !recSkips env base p) listing j hj]
      simp [recSkips, List.get_eq_getElem, hskc]
    · simp [recFails, recSkips, List.get_eq_getElem, hskc]
  · intro sz hfs hsz
    have hfs2 : env.fs (downloadPath base env.fmtTs listing[j] j) = some sz := by
      simpa [List.get_eq_getElem] using hfs
    have hskc : skipCheck env base listing[j] j = false := by
      simp [skipCheck, hfs2]
      omega
    refine ⟨?_, ?_⟩
    · rw [hdispatched,
        mem_map_fst_filter_enum (fun p => !recSkips env base p) listing j hj]
      simp [recSkips, List.get_eq_getElem, hskc]
    · rw [hskipped, mem_map_fst_filter_enum (recSkips env base) listing j hj]
      simp [recSkips, List.get_eq_getElem, hskc]

/-- Witness for C5 (amended): in `envFull` the single record's skip
branch applies; in `envSmall` the dispatch branch applies. -/
theorem c5_skip_precheck_witness :
    (0 ∈ logsSkipped (export_cmip6_collection_parallel envFull "b" [recPlain] 10).2)
    ∧ (0 ∈ logsDispatched
        (export_cmip6_collection_parallel envSmall "b" [recPlain] 10).2) := by
  constructor
  · exact ((c5_skip_precheck envFull "b" [recPlain] 10 (by decide) 0 (by decide)).1
      2048 rfl (by decide)).1
  · exact ((c5_skip_precheck envSmall "b" [recPlain] 10 (by decide) 0 (by decide)).2.1
      10 rfl (by decide)).1

/-! ### Path Planner: claim C7 -/

/-- The Path Planner as claim C7 states it: the date part falls back from
(a) the timestamp property to (b) an 8-digit token of the record
identifier to (c) the synthetic index fallback, with no condition on the
`system:index` property. -/
def planFilenameClaim (fmtTs : Int → String) (r : ImgRecord) (globalIdx : Nat) :
    String :=
  let date :=
    match r.timeStart with
    | some ts => fmtTs ts
    | none =>
      match dateFromId r.id with
      | some d => d
      | none => "image_" ++ toString globalIdx
  sanitizeFilename (modelScenario r ++ "_" ++ date ++ ".tif")

/-- The Path Planner as the spec describes it, amended with the guard the
code applies: the identifier token (b) is consulted only when the record
carries the `system:index` property. -/
def planFilenameSpec (fmtTs : Int → String) (r : ImgRecord) (globalIdx : Nat) :
    String :=
  let date :=
    match r.timeStart with
    | some ts => fmtTs ts
    | none =>
      if r.hasSystemIndex then
        match dateFromId r.id with
        | some d => d
        | none => "image_" ++ toString globalIdx
      else "image_" ++ toString globalIdx
  sanitizeFilename (modelScenario r ++ "_" ++ date ++ ".tif")

/-- A record without `system:index` whose identifier embeds a valid
8-digit date token. -/
def recToken : ImgRecord :=
  { id := "A_20200102_B", timeStart := none, hasSystemIndex := false,
    model := none, scenario := none }

/-- Counterexample to C7 as stated: for a record lacking the
`system:index` property whose identifier embeds the token `20200102`,
the code produces the fallback name (`CMIP6_image_0.tif`) while the
claimed unguarded priority order would produce `CMIP6_2020-01-02.tif`. -/
theorem c7_counterexample :
    planFilename (fun _ => "1970-01-01") recToken 0
      ≠ planFilenameClaim (fun _ => "1970-01-01") recToken 0 := by
  decide

theorem formatYMD8_ne_empty (s : String) : formatYMD8 s ≠ "" := by
  intro h
  have hlen := congrArg String.length h
  simp only [formatYMD8, String.length_append] at hlen
  have h1 : String.length "-" = 1 := rfl
  have h2 : String.length "" = 0 := rfl
  omega

theorem dateFromId_ne_empty {imageId d : String} (h : dateFromId imageId = some d) :
    d ≠ "" := by
  obtain ⟨part, hmem, hf⟩ := List.exists_of_findSome?_eq_some h
  have hd : d = formatYMD8 part := by
    by_cases hv : valid8 part = true
    · simp [hv] at hf
      exact hf.symm
    · simp [hv] at hf
  rw [hd]
  exact formatYMD8_ne_empty part

/-- Claim C7 (amended): the Path Planner produces the sanitized
`{modelOrScenarioTag}_{dateOrFallback}.tif` with the date chosen by
priority (a) the timestamp property formatted by the timestamp
formatter, (b) — only when the record carries the `system:index`
property — the first valid 8-digit `YYYYMMDD` token of the identifier
re-formatted as `YYYY-MM-DD`, (c) the synthetic fallback
`image_{batchStart + index}`; `/` and `:` are replaced by `_`; and the
computation is a pure function of the record and index (determinism is
immediate from the embedding).  Stated as equality with an independent
spec-shaped definition, for any formatter that never yields the empty
string (as `strftime('%Y-%m-%d')` never does). -/
theorem c7_path_planner (fmtTs : Int → String) (r : ImgRecord) (g : Nat)
    (hfmt : ∀ ts, fmtTs ts ≠ "") :
    planFilename fmtTs r g = planFilenameSpec fmtTs r g
    ∧ ∀ s, (sanitizeFilename s).data
        = s.data.map (fun c => if c = '/' || c = ':' then '_' else c) := by
  constructor
  · unfold planFilename planFilenameSpec dateStr
    cases hts : r.timeStart with
    | some ts => simp [hfmt ts]
    | none =>
      cases hsi : r.hasSystemIndex with
      | true =>
        cases hd : dateFromId r.id with
        | some d => simp [hd, dateFromId_ne_empty hd]
        | none => simp [hd]
      | false => simp
  · intro s
    simp only [sanitizeFilename, replaceChar, List.map_map]
    apply List.map_congr_left
    intro c _
    by_cases h1 : c = '/' <;> by_cases h2 : c = ':' <;>
      simp [h1, h2, Function.comp]

/-- Witness for C7 (amended) at a concrete formatter, record and index. -/
theorem c7_path_planner_witness :
    planFilename (fun _ => "1970-01-01") recToken 0
      = planFilenameSpec (fun _ => "1970-01-01") recToken 0 :=
  (c7_path_planner (fun _ => "1970-01-01") recToken 0
    (fun ts => by
      show "1970-01-01" ≠ ""
      decide)).1

/-! ### Variable-Level Driver: claim C9 -/

/-- Claim C9: a fatal error while querying or processing one variable is
caught by the Variable-Level Driver and recorded: an error before the
download starts (the catalog/listing query path) records the zero-stats
entry `{0, 0, 0}`, an error during the orchestrator run records an
entry with `successful = 0`; and the driver always processes every
selected variable — the result keys are exactly the selected variable
codes, so no failure aborts the remaining variables. -/
theorem c9_variable_isolation :
    processVariable VarQuery.queryRaise = { total := 0, successful := 0, failed := 0 }
    ∧ (∀ n e, (processVariable (VarQuery.listed n (Except.error e))).successful = 0)
    ∧ (∀ varsReq query,
        (getCMIP6_async varsReq query).map Prod.fst
          = (filterBands varsReq).map Prod.fst)
    ∧ (∀ varsReq query p, p ∈ filterBands varsReq →
        (p.1, processVariable (query p.1)) ∈ getCMIP6_async varsReq query) := by
  refine ⟨rfl, ?_, ?_, ?_⟩
  · intro n e
    cases n <;> rfl
  · intro varsReq query
    simp [getCMIP6_async, List.map_map, Function.comp]
  · intro varsReq query p hp
    exact List.mem_map.mpr ⟨p, hp, rfl⟩

/-- A driver environment where the catalog query for `tas` raises and
every other variable's orchestrator run raises. -/
def q0 : String → VarQuery :=
  fun v => if v == "tas" then VarQuery.queryRaise else VarQuery.listed 3 (Except.error ())

/-- Witness for C9: with `tas` failing at the catalog query, the driver
still records entries, and a failed run records zero successes. -/
theorem c9_variable_isolation_witness :
    (("tas", processVariable (q0 "tas")) ∈ getCMIP6_async none q0)
    ∧ (processVariable (VarQuery.listed 3 (Except.error ()))).successful = 0 :=
  ⟨c9_variable_isolation.2.2.2 none q0 ("tas", "Near-Surface Air Temperature")
      (by decide),
    c9_variable_isolation.2.1 3 ()⟩

end ClimProj
